import Mathlib

/-!
Verification of the report-generation core of the `rustsec` crate
(`src/rustsec/src/report.rs`).

The embedding follows the source file closely.  Collaborator types that
live outside the given source (advisory identifiers, informational
categories, warning kinds, the database query builder, the `Warning`
constructor, commit metadata) are modelled from the specification's
interface descriptions; each such definition says so in its doc comment.
-/

set_option autoImplicit false

namespace Rustsec

/-- Modelled from the spec: an advisory's unique ID (opaque identifier,
compared for exact equality, e.g. "RUSTSEC-2021-0001"). -/
abbrev AdvisoryId := String

/-- Modelled from the spec: CPU architecture filter values (opaque,
compared for equality; the report core only propagates them). -/
inductive Arch where
  | x86_64
  | aarch64
  deriving DecidableEq, Repr

/-- Modelled from the spec: operating-system filter values (opaque,
compared for equality; the report core only propagates them). -/
inductive OS where
  | linux
  | windows
  deriving DecidableEq, Repr

/-- Modelled from the spec: advisory severity levels, used only as an
optional minimum-severity threshold propagated into the query. -/
inductive Severity where
  | low
  | medium
  | high
  | critical
  deriving DecidableEq, Repr

/-- Modelled from the spec: the classification bucket an informational
category maps to; the grouping key of the warnings section. -/
inductive WarningKind where
  | notice
  | unmaintained
  | unsound
  deriving DecidableEq, Repr

/-- Modelled from the spec: informational (non-exploit) advisory
categories.  Exact match only; `other` categories are the
internal/non-reportable ones with no corresponding warning kind. -/
inductive Informational where
  | notice
  | unmaintained
  | unsound
  | other (name : String)
  deriving DecidableEq, Repr

/-- Modelled from the spec: the mapping from an informational category to
a defined warning kind; some categories are internal/non-reportable and
have no corresponding kind. -/
def Informational.warning_kind : Informational → Option WarningKind
  | .notice => some .notice
  | .unmaintained => some .unmaintained
  | .unsound => some .unsound
  | .other _ => none

/-- Modelled from the spec: the identity of an affected package
(opaque; the report core only copies it into warnings). -/
abbrev Package := String

/-- Modelled from the spec: the matched version range of an advisory
match (opaque; the report core only copies it into warnings). -/
abbrev VersionsRange := String

/-- Modelled from the spec: an advisory record with its unique ID and
optional informational category.  Other advisory metadata is irrelevant
to the report core. -/
structure Advisory where
  id : AdvisoryId
  informational : Option Informational
  deriving DecidableEq, Repr

/-- Modelled from the spec: one match returned by
`query_vulnerabilities`: the advisory, the affected package identity and
the matched version range. -/
structure Vulnerability where
  advisory : Advisory
  package : Package
  versions : VersionsRange
  deriving DecidableEq, Repr

/-- Modelled from the spec: a categorized warning derived from an
informational advisory match. -/
structure Warning where
  kind : WarningKind
  package : Package
  advisory : Option Advisory
  versions : Option VersionsRange
  deriving DecidableEq, Repr

/-- Modelled from the spec: `Warning::new(kind, package, advisory,
versions)` bundles the mapped kind, the package identity, a copy of the
advisory and the matched version range. -/
def Warning.new (kind : WarningKind) (package : Package)
    (advisory : Option Advisory) (versions : Option VersionsRange) : Warning :=
  { kind := kind, package := package, advisory := advisory, versions := versions }

/-- Modelled from the spec: an immutable query configuration built from
`Settings`: scope-to-all-crates, optional architecture, OS and minimum
severity restrictions, and the informational-mode toggle. -/
structure Query where
  scope_all_crates : Bool
  target_arch : Option Arch
  target_os : Option OS
  severity : Option Severity
  informational : Bool
  deriving DecidableEq, Repr

/-- Modelled from the spec: `Query::crate_scope()` — a query scoped to
all packages in the lockfile, with no restrictions and informational
mode off. -/
def Query.crate_scope : Query :=
  { scope_all_crates := true, target_arch := none, target_os := none,
    severity := none, informational := false }

/-- Modelled from the spec: restrict-by-architecture builder method,
returning an updated query without mutating the original. -/
def Query.target_arch_set (q : Query) (arch : Arch) : Query :=
  { q with target_arch := some arch }

/-- Modelled from the spec: restrict-by-OS builder method. -/
def Query.target_os_set (q : Query) (os : OS) : Query :=
  { q with target_os := some os }

/-- Modelled from the spec: restrict-by-minimum-severity builder
method. -/
def Query.severity_set (q : Query) (sev : Severity) : Query :=
  { q with severity := some sev }

/-- Modelled from the spec: toggle-informational-mode builder method. -/
def Query.informational_set (q : Query) (flag : Bool) : Query :=
  { q with informational := flag }

/-- Modelled from the spec: the most recent source-history commit of the
advisory database — an identifier (rendered to hex) and a timestamp. -/
structure Commit where
  commit_id : String
  timestamp : Nat
  deriving DecidableEq, Repr

/-- Modelled from the spec: rendering a commit identifier to its textual
hex form. -/
def Commit.to_hex (c : Commit) : String := c.commit_id

/-- Modelled from the spec: the lockfile collaborator exposes its
resolved packages (the report core only takes their count). -/
structure Lockfile where
  packages : List Package

/-- Modelled from the spec: the advisory-database collaborator.
`query_vulnerabilities` returns the ordered sequence of matches for a
lockfile and query (stable across repeated calls with identical inputs —
here a pure function); `advisories` is what its advisory iterator
yields; `latest_commit` is the optional source-history capability. -/
structure Database where
  advisories : List Advisory
  latest_commit : Option Commit
  query_vulnerabilities : Lockfile → Query → List Vulnerability

/-- `Settings`: options to use when generating the report
(report.rs lines 61-77). -/
structure Settings where
  target_arch : Option Arch
  target_os : Option OS
  severity : Option Severity
  ignore : List AdvisoryId
  informational_warnings : List Informational
  deriving DecidableEq, Repr

/-- `Settings::query` (report.rs lines 83-99): build the query
corresponding to the configured report settings. -/
def Settings.query (s : Settings) : Query :=
  let query := Query.crate_scope
  let query := match s.target_arch with
    | some target_arch => query.target_arch_set target_arch
    | none => query
  let query := match s.target_os with
    | some target_os => query.target_os_set target_os
    | none => query
  let query := match s.severity with
    | some severity => query.severity_set severity
    | none => query
  query

/-- `DatabaseInfo` (report.rs lines 106-118): information about the
advisory database. -/
structure DatabaseInfo where
  advisory_count : Nat
  last_commit : Option String
  last_updated : Option Nat
  deriving DecidableEq, Repr

/-- `DatabaseInfo::new` (report.rs lines 123-129). -/
def DatabaseInfo.new (db : Database) : DatabaseInfo :=
  { advisory_count := db.advisories.length
    last_commit := db.latest_commit.map (fun c => c.to_hex)
    last_updated := db.latest_commit.map (fun c => c.timestamp) }

/-- `LockfileInfo` (report.rs lines 133-138): information about
`Cargo.lock`. -/
structure LockfileInfo where
  dependency_count : Nat
  deriving DecidableEq, Repr

/-- `LockfileInfo::new` (report.rs lines 142-146). -/
def LockfileInfo.new (lockfile : Lockfile) : LockfileInfo :=
  { dependency_count := lockfile.packages.length }

/-- `VulnerabilityInfo` (report.rs lines 150-160): information about
detected vulnerabilities. -/
structure VulnerabilityInfo where
  found : Bool
  count : Nat
  list : List Vulnerability
  deriving DecidableEq, Repr

/-- `VulnerabilityInfo::new` (report.rs lines 164-170). -/
def VulnerabilityInfo.new (list : List Vulnerability) : VulnerabilityInfo :=
  { found := !list.isEmpty
    count := list.length
    list := list }

/-- `WarningInfo` (report.rs line 174): mapping from warning kind to the
list of warnings of that kind.  The source uses `Map<WarningKind,
Vec<Warning>>` through its entry API only; it is embedded as an
association list with distinct keys. -/
abbrev WarningInfo := List (WarningKind × List Warning)

/-- First bucket stored under kind `k` in the map. -/
def bucketLookup (m : WarningInfo) (k : WarningKind) : Option (List Warning) :=
  match m with
  | [] => none
  | (k', ws) :: rest => if k' = k then some ws else bucketLookup rest k

/-- The entry-API update of report.rs lines 212-217: if the bucket for
`w.kind` is occupied, push `w` at its end; if vacant, insert a new
bucket holding only `w`. -/
def bucketAdd (m : WarningInfo) (w : Warning) : WarningInfo :=
  match m with
  | [] => [(w.kind, [w])]
  | (k, ws) :: rest =>
    if k = w.kind then (k, ws ++ [w]) :: rest
    else (k, ws) :: bucketAdd rest w

/-- The loop body of `find_warnings` (report.rs lines 183-219) for one
match, with the `expect("informational advisory")` panic embedded as the
error of an `Except`. -/
def processMatchChecked (settings : Settings) (acc : WarningInfo)
    (advisory_vuln : Vulnerability) : Except String WarningInfo :=
  let advisory := advisory_vuln.advisory
  if settings.ignore.contains advisory.id then
    Except.ok acc
  else if settings.informational_warnings.any
      (fun info => some info = advisory.informational) then
    match advisory.informational with
    | none => Except.error "informational advisory"
    | some inf =>
      match inf.warning_kind with
      | none => Except.ok acc
      | some warning_kind =>
        let warning := Warning.new warning_kind advisory_vuln.package
          (some advisory) (some advisory_vuln.versions)
        Except.ok (bucketAdd acc warning)
  else
    Except.ok acc

/-- The loop body of `find_warnings` (report.rs lines 183-219) for one
match, total form: the branch in which the source panics (informational
payload absent after the membership guard succeeded) is dead code, and
is embedded as a skip; `find_warningsChecked_eq` proves the two forms
agree because the error branch is unreachable. -/
def processMatch (settings : Settings) (acc : WarningInfo)
    (advisory_vuln : Vulnerability) : WarningInfo :=
  let advisory := advisory_vuln.advisory
  if settings.ignore.contains advisory.id then
    acc
  else if settings.informational_warnings.any
      (fun info => some info = advisory.informational) then
    match advisory.informational with
    | none => acc
    | some inf =>
      match inf.warning_kind with
      | none => acc
      | some warning_kind =>
        let warning := Warning.new warning_kind advisory_vuln.package
          (some advisory) (some advisory_vuln.versions)
        bucketAdd acc warning
  else
    acc

/-- `find_warnings` (report.rs lines 177-222): run the informational
query and fold every match through the loop body, starting from the
empty map. -/
def find_warnings (db : Database) (lockfile : Lockfile)
    (settings : Settings) : WarningInfo :=
  let query := settings.query.informational_set true
  (db.query_vulnerabilities lockfile query).foldl (processMatch settings) []

/-- `find_warnings` with the panic embedded as an `Except` error: the
faithful fallible form of report.rs lines 177-222. -/
def find_warningsChecked (db : Database) (lockfile : Lockfile)
    (settings : Settings) : Except String WarningInfo :=
  let query := settings.query.informational_set true
  (db.query_vulnerabilities lockfile query).foldlM
    (processMatchChecked settings) []

/-- `Report` (report.rs lines 19-36).  The `database` field is guarded
by `#[cfg(feature = "git")]` in the source; its conditional presence is
embedded as an `Option`, driven by the `gitFeature` build-configuration
flag passed to `Report.generate`. -/
structure Report where
  database : Option DatabaseInfo
  lockfile : LockfileInfo
  settings : Settings
  vulnerabilities : VulnerabilityInfo
  warnings : WarningInfo
  deriving DecidableEq, Repr

/-- `Report::generate` (report.rs lines 40-57).  `gitFeature` models the
compile-time cargo feature `"git"`: the `database` field is included
exactly when the feature is enabled. -/
def Report.generate (gitFeature : Bool) (db : Database) (lockfile : Lockfile)
    (settings : Settings) : Report :=
  let vulnerabilities :=
    (db.query_vulnerabilities lockfile settings.query).filter
      (fun vuln => !settings.ignore.contains vuln.advisory.id)
  let warnings := find_warnings db lockfile settings
  { database := if gitFeature then some (DatabaseInfo.new db) else none
    lockfile := LockfileInfo.new lockfile
    settings := settings
    vulnerabilities := VulnerabilityInfo.new vulnerabilities
    warnings := warnings }

/-- The per-match selector implicit in the loop of `find_warnings`: the
warning a match contributes to the output, if any.  It returns `some`
exactly when the three inclusion conditions hold (ID not ignored,
informational category exactly requested, category mapped to a kind),
and in that case the contributed warning. -/
def warningSelect (settings : Settings) (v : Vulnerability) : Option Warning :=
  if settings.ignore.contains v.advisory.id then none
  else if settings.informational_warnings.any
      (fun info => some info = v.advisory.informational) then
    match v.advisory.informational with
    | none => none
    | some inf =>
      inf.warning_kind.map (fun kind =>
        Warning.new kind v.package (some v.advisory) (some v.versions))
  else none

/-- All warnings contributed by a list of matches, in discovery order. -/
def selectedWarnings (settings : Settings) (vs : List Vulnerability) : List Warning :=
  vs.filterMap (warningSelect settings)

/-- All warnings stored in the map, bucket by bucket. -/
def allWarnings (m : WarningInfo) : List Warning :=
  (m.map Prod.snd).flatten

/-- Append a batch of warnings to an optional bucket, creating the
bucket only when the result would be non-empty. -/
def bucketJoin (o : Option (List Warning)) (l : List Warning) : Option (List Warning) :=
  match o with
  | some b => some (b ++ l)
  | none => if l.isEmpty then none else some l

/-- Well-formedness of the warnings map: every bucket is non-empty,
holds only warnings carrying the bucket's kind, and all stored warnings
satisfy `P`. -/
def bucketsWF (P : Warning → Prop) (m : WarningInfo) : Prop :=
  ∀ p ∈ m, p.2 ≠ [] ∧ ∀ w ∈ p.2, p.1 = w.kind ∧ P w

/-! Concrete example inputs, used to instantiate the theorems below. -/

/-- Example: a plain (exploit) advisory. -/
def exAdvisoryA : Advisory := { id := "ADV-001", informational := none }

/-- Example: a second plain advisory. -/
def exAdvisoryB : Advisory := { id := "ADV-002", informational := none }

/-- Example: an unmaintained-category informational advisory. -/
def exAdvisoryU : Advisory := { id := "ADV-100", informational := some .unmaintained }

/-- Example: an unsound-category informational advisory. -/
def exAdvisoryS : Advisory := { id := "ADV-101", informational := some .unsound }

/-- Example: an informational advisory whose category has no warning
kind. -/
def exAdvisoryO : Advisory := { id := "ADV-102", informational := some (.other "yanked") }

/-- Example lockfile with two packages. -/
def exLockfile : Lockfile := { packages := ["foo", "bar"] }

/-- Example base-query match for `exAdvisoryA`. -/
def exVulnA : Vulnerability := { advisory := exAdvisoryA, package := "foo", versions := "<1.0" }

/-- Example base-query match for `exAdvisoryB`. -/
def exVulnB : Vulnerability := { advisory := exAdvisoryB, package := "bar", versions := "<2.0" }

/-- Example database: two exploit advisories and three informational
ones, history capability present. -/
def exDatabase : Database :=
  { advisories := [exAdvisoryA, exAdvisoryB, exAdvisoryU, exAdvisoryS, exAdvisoryO]
    latest_commit := some { commit_id := "abc123", timestamp := 1700000000 }
    query_vulnerabilities := fun _ q =>
      if q.informational then
        [ { advisory := exAdvisoryU, package := "foo", versions := "<1.0" },
          { advisory := exAdvisoryS, package := "bar", versions := "<2.0" },
          { advisory := exAdvisoryU, package := "baz", versions := "<3.0" },
          { advisory := exAdvisoryO, package := "qux", versions := "*" } ]
      else [exVulnA, exVulnB] }

/-- Example database without history capability (`latest_commit`
absent). -/
def exDatabaseNoGit : Database :=
  { advisories := [exAdvisoryA, exAdvisoryB]
    latest_commit := none
    query_vulnerabilities := fun _ _ => [] }

/-- Example settings: ignore ADV-001, request the unmaintained category
and an unmapped category. -/
def exSettings : Settings :=
  { target_arch := none, target_os := none, severity := none,
    ignore := ["ADV-001"],
    informational_warnings := [.unmaintained, .other "yanked"] }

/-- The first warning `find_warnings` produces on the example inputs. -/
def exWarning1 : Warning :=
  { kind := .unmaintained, package := "foo", advisory := some exAdvisoryU,
    versions := some "<1.0" }

/-- The second warning `find_warnings` produces on the example inputs. -/
def exWarning2 : Warning :=
  { kind := .unmaintained, package := "baz", advisory := some exAdvisoryU,
    versions := some "<3.0" }

/-! Helper lemmas. -/

theorem bucketJoin_nil (o : Option (List Warning)) : bucketJoin o [] = o := by
  cases o <;> simp [bucketJoin]

theorem bucketJoin_append (o : Option (List Warning)) (a b : List Warning) :
    bucketJoin o (a ++ b) = bucketJoin (bucketJoin o a) b := by
  cases o with
  | some c => simp [bucketJoin]
  | none => cases a <;> cases b <;> simp [bucketJoin]

/-- The loop body equals the selector followed by the entry-API
insertion: a match either contributes nothing, or contributes exactly
the selected warning via `bucketAdd`. -/
theorem processMatch_eq_select (s : Settings) (acc : WarningInfo) (v : Vulnerability) :
    processMatch s acc v = (warningSelect s v).elim acc (bucketAdd acc) := by
  by_cases h1 : v.advisory.id ∈ s.ignore
  · simp [processMatch, warningSelect, h1]
  · cases hinf : v.advisory.informational with
    | none => simp [processMatch, warningSelect, h1, hinf]
    | some inf =>
      by_cases h2 : inf ∈ s.informational_warnings
      · cases hk : inf.warning_kind <;>
          simp [processMatch, warningSelect, h1, h2, hinf, hk, Warning.new]
      · simp [processMatch, warningSelect, h1, h2, hinf]

theorem bucketLookup_bucketAdd (m : WarningInfo) (w : Warning) (k : WarningKind) :
    bucketLookup (bucketAdd m w) k =
      if w.kind = k then bucketJoin (bucketLookup m k) [w] else bucketLookup m k := by
  induction m with
  | nil => by_cases h : w.kind = k <;> simp [bucketAdd, bucketLookup, bucketJoin, h]
  | cons p rest ih =>
    obtain ⟨kk, ws⟩ := p
    by_cases h1 : kk = w.kind
    · by_cases h2 : kk = k
      · have hwk : w.kind = k := h1 ▸ h2
        simp [bucketAdd, bucketLookup, h1, h2, hwk, bucketJoin]
      · have hwk : ¬w.kind = k := fun h => h2 (h1.trans h)
        simp [bucketAdd, bucketLookup, h1, h2, hwk]
    · by_cases h2 : kk = k
      · have hwk : ¬w.kind = k := fun h => h1 (h2.trans h.symm)
        have h1k : ¬k = w.kind := h2 ▸ h1
        simp [bucketAdd, bucketLookup, h1, h2, hwk, h1k]
      · simp [bucketAdd, bucketLookup, h1, h2, ih]

theorem bucketLookup_foldl (s : Settings) (vs : List Vulnerability)
    (acc : WarningInfo) (k : WarningKind) :
    bucketLookup (vs.foldl (processMatch s) acc) k =
      bucketJoin (bucketLookup acc k)
        ((selectedWarnings s vs).filter (fun w => w.kind == k)) := by
  induction vs generalizing acc with
  | nil => simp [selectedWarnings, bucketJoin_nil]
  | cons v vs ih =>
    rw [List.foldl_cons, ih, processMatch_eq_select]
    cases hs : warningSelect s v with
    | none => simp [selectedWarnings, List.filterMap_cons, hs, Option.elim]
    | some w =>
      simp only [selectedWarnings, List.filterMap_cons, hs, Option.elim,
        List.filter_cons]
      rw [bucketLookup_bucketAdd]
      by_cases hk : w.kind = k
      · have hkb : (w.kind == k) = true := by simp [hk]
        rw [if_pos hk, hkb]
        simp only [ite_true]
        rw [show (w :: List.filter (fun w => w.kind == k) (List.filterMap (warningSelect s) vs)) =
          [w] ++ List.filter (fun w => w.kind == k) (List.filterMap (warningSelect s) vs) from rfl]
        rw [bucketJoin_append]
      · have hkb : (w.kind == k) = false := by simp [hk]
        rw [if_neg hk, hkb]
        simp

theorem allWarnings_bucketAdd (m : WarningInfo) (w : Warning) :
    (allWarnings (bucketAdd m w)).Perm (w :: allWarnings m) := by
  induction m with
  | nil => simp [bucketAdd, allWarnings]
  | cons p rest ih =>
    obtain ⟨k, ws⟩ := p
    by_cases h : k = w.kind
    · simp only [bucketAdd, if_pos h, allWarnings, List.map_cons, List.flatten_cons,
        List.append_assoc, List.singleton_append]
      exact List.perm_middle
    · simp only [bucketAdd, if_neg h, allWarnings, List.map_cons, List.flatten_cons]
      exact (ih.append_left ws).trans List.perm_middle

theorem allWarnings_foldl (s : Settings) (vs : List Vulnerability) (acc : WarningInfo) :
    (allWarnings (vs.foldl (processMatch s) acc)).Perm
      (selectedWarnings s vs ++ allWarnings acc) := by
  induction vs generalizing acc with
  | nil => simp [selectedWarnings]
  | cons v vs ih =>
    rw [List.foldl_cons, processMatch_eq_select]
    cases hs : warningSelect s v with
    | none => simpa [selectedWarnings, List.filterMap_cons, hs] using ih acc
    | some w =>
      simp only [Option.elim, selectedWarnings, List.filterMap_cons, hs]
      exact ((ih (bucketAdd acc w)).trans
        ((allWarnings_bucketAdd acc w).append_left _)).trans List.perm_middle

theorem mem_keys_bucketAdd (m : WarningInfo) (w : Warning) (a : WarningKind)
    (h : a ∈ (bucketAdd m w).map Prod.fst) : a = w.kind ∨ a ∈ m.map Prod.fst := by
  induction m with
  | nil => simpa [bucketAdd] using h
  | cons p rest ih =>
    obtain ⟨kk, ws⟩ := p
    by_cases h1 : kk = w.kind
    · simpa [bucketAdd, h1] using h
    · simp only [bucketAdd, if_neg h1, List.map_cons, List.mem_cons] at h
      rcases h with h | h
      · exact Or.inr (by simp [h])
      · rcases ih h with h2 | h2
        · exact Or.inl h2
        · exact Or.inr (by simp [h2])

theorem nodup_keys_bucketAdd (m : WarningInfo) (w : Warning)
    (h : (m.map Prod.fst).Nodup) : ((bucketAdd m w).map Prod.fst).Nodup := by
  induction m with
  | nil => simp [bucketAdd]
  | cons p rest ih =>
    obtain ⟨kk, ws⟩ := p
    by_cases h1 : kk = w.kind
    · simpa [bucketAdd, h1] using h
    · simp only [List.map_cons, List.nodup_cons] at h
      simp only [bucketAdd, if_neg h1, List.map_cons, List.nodup_cons]
      refine ⟨fun hmem => ?_, ih h.2⟩
      rcases mem_keys_bucketAdd rest w kk hmem with h2 | h2
      · exact h1 h2
      · exact h.1 h2

theorem nodup_keys_foldl (s : Settings) (vs : List Vulnerability) (acc : WarningInfo)
    (h : (acc.map Prod.fst).Nodup) :
    ((vs.foldl (processMatch s) acc).map Prod.fst).Nodup := by
  induction vs generalizing acc with
  | nil => exact h
  | cons v vs ih =>
    rw [List.foldl_cons, processMatch_eq_select]
    cases hs : warningSelect s v with
    | none => exact ih acc h
    | some w => exact ih (bucketAdd acc w) (nodup_keys_bucketAdd acc w h)

theorem bucketsWF_bucketAdd (P : Warning → Prop) (m : WarningInfo) (w : Warning)
    (hm : bucketsWF P m) (hw : P w) : bucketsWF P (bucketAdd m w) := by
  induction m with
  | nil =>
    intro p hp
    simp only [bucketAdd, List.mem_singleton] at hp
    subst hp
    refine ⟨by simp, ?_⟩
    intro w2 hw2
    simp only [List.mem_singleton] at hw2
    subst hw2
    exact ⟨rfl, hw⟩
  | cons q rest ih =>
    obtain ⟨kk, ws⟩ := q
    have hrest : bucketsWF P rest := fun p hp => hm p (List.mem_cons_of_mem _ hp)
    have hhead := hm (kk, ws) (List.mem_cons_self _ _)
    by_cases h1 : kk = w.kind
    · intro p hp
      simp only [bucketAdd, if_pos h1, List.mem_cons] at hp
      rcases hp with hp | hp
      · subst hp
        refine ⟨by simp, ?_⟩
        intro w2 hw2
        rcases List.mem_append.mp hw2 with h2 | h2
        · exact hhead.2 w2 h2
        · simp only [List.mem_singleton] at h2
          subst h2
          exact ⟨h1, hw⟩
      · exact hrest p hp
    · intro p hp
      simp only [bucketAdd, if_neg h1, List.mem_cons] at hp
      rcases hp with hp | hp
      · subst hp
        exact hhead
      · exact ih hrest p hp

theorem bucketsWF_foldl (P : Warning → Prop) (s : Settings) (vs : List Vulnerability)
    (acc : WarningInfo) (hacc : bucketsWF P acc)
    (hsel : ∀ v w, warningSelect s v = some w → P w) :
    bucketsWF P (vs.foldl (processMatch s) acc) := by
  induction vs generalizing acc with
  | nil => exact hacc
  | cons v vs ih =>
    rw [List.foldl_cons, processMatch_eq_select]
    cases hs : warningSelect s v with
    | none => exact ih acc hacc
    | some w => exact ih (bucketAdd acc w) (bucketsWF_bucketAdd P acc w hacc (hsel v w hs))

theorem warningSelect_shape (s : Settings) (v : Vulnerability) (w : Warning)
    (h : warningSelect s v = some w) :
    w.advisory = some v.advisory ∧ w.versions = some v.versions := by
  unfold warningSelect at h
  split at h
  · simp at h
  · split at h
    · cases hinf : v.advisory.informational with
      | none => rw [hinf] at h; simp at h
      | some inf =>
        rw [hinf] at h
        rcases Option.map_eq_some'.mp h with ⟨kind, _, hw⟩
        rw [← hw]
        exact ⟨rfl, rfl⟩
    · simp at h

theorem processMatchChecked_eq (s : Settings) (acc : WarningInfo) (v : Vulnerability) :
    processMatchChecked s acc v = Except.ok (processMatch s acc v) := by
  by_cases h1 : v.advisory.id ∈ s.ignore
  · simp [processMatchChecked, processMatch, h1]
  · cases hinf : v.advisory.informational with
    | none => simp [processMatchChecked, processMatch, h1, hinf]
    | some inf =>
      by_cases h2 : inf ∈ s.informational_warnings
      · cases hk : inf.warning_kind <;>
          simp [processMatchChecked, processMatch, h1, h2, hinf, hk]
      · simp [processMatchChecked, processMatch, h1, h2, hinf]

theorem foldlM_processMatchChecked (s : Settings) (vs : List Vulnerability)
    (acc : WarningInfo) :
    vs.foldlM (processMatchChecked s) acc = Except.ok (vs.foldl (processMatch s) acc) := by
  induction vs generalizing acc with
  | nil => rfl
  | cons v vs ih =>
    rw [List.foldlM_cons, processMatchChecked_eq]
    exact ih (processMatch s acc v)

/-- The faithful fallible form of `find_warnings` never reaches the
panic: it always returns the total form's result. -/
theorem find_warningsChecked_eq (db : Database) (lf : Lockfile) (s : Settings) :
    find_warningsChecked db lf s = Except.ok (find_warnings db lf s) := by
  unfold find_warningsChecked find_warnings
  exact foldlM_processMatchChecked s _ []

/-! The claims. -/

/-- Claim C1: for every match returned by the informational-mode query
in `find_warnings`, exactly one Warning is produced iff the advisory's
ID is not in `settings.ignore`, the advisory's informational category is
exactly present in `settings.informational_warnings`, and that category
maps to a defined warning kind; if any condition fails, zero Warnings
are produced for that match.  The warnings stored in the result are, as
a multiset, exactly the per-match selections, and the per-match selector
fires iff the three conditions hold. -/
theorem C1_warning_inclusion (db : Database) (lf : Lockfile) (s : Settings) :
    (allWarnings (find_warnings db lf s)).Perm
      (selectedWarnings s
        (db.query_vulnerabilities lf (s.query.informational_set true)))
    ∧ ∀ v : Vulnerability,
        ((warningSelect s v).isSome = true ↔
          (v.advisory.id ∉ s.ignore ∧
            ∃ c, v.advisory.informational = some c ∧
              c ∈ s.informational_warnings ∧
              (Informational.warning_kind c).isSome = true)) := by
  constructor
  · have h := allWarnings_foldl s
      (db.query_vulnerabilities lf (s.query.informational_set true)) []
    simpa [find_warnings, allWarnings] using h
  · intro v
    by_cases h1 : v.advisory.id ∈ s.ignore
    · simp [warningSelect, h1]
    · cases hinf : v.advisory.informational with
      | none => simp [warningSelect, h1, hinf]
      | some inf =>
        by_cases h2 : inf ∈ s.informational_warnings
        · cases hk : inf.warning_kind <;> simp [warningSelect, h1, h2, hinf, hk]
        · simp [warningSelect, h1, h2, hinf]

/-- Claim C2: every base-query match appears in the generated report's
vulnerability list iff its advisory ID is not in `settings.ignore`, and
the surviving matches keep the query's relative order (the list is a
sublist of the query result). -/
theorem C2_ignore_filter (gitFeature : Bool) (db : Database) (lf : Lockfile)
    (s : Settings) :
    ((Report.generate gitFeature db lf s).vulnerabilities.list).Sublist
        (db.query_vulnerabilities lf s.query)
    ∧ ∀ v : Vulnerability,
        (v ∈ (Report.generate gitFeature db lf s).vulnerabilities.list ↔
          (v ∈ db.query_vulnerabilities lf s.query ∧ v.advisory.id ∉ s.ignore)) := by
  constructor
  · simp only [Report.generate, VulnerabilityInfo.new]
    exact List.filter_sublist (db.query_vulnerabilities lf s.query)
  · intro v
    simp [Report.generate, VulnerabilityInfo.new, List.mem_filter]

/-- Claim C3: in the map returned by `find_warnings`, every produced
warning is stored under exactly one kind key, the kind it carries; the
bucket of a kind holds, in discovery order, precisely the selected
warnings of that kind, created with its first warning and extended by
appending. -/
theorem C3_grouping (db : Database) (lf : Lockfile) (s : Settings) :
    (∀ k : WarningKind,
        bucketLookup (find_warnings db lf s) k =
          bucketJoin none
            ((selectedWarnings s
                (db.query_vulnerabilities lf (s.query.informational_set true))).filter
              (fun w => w.kind == k)))
    ∧ ((find_warnings db lf s).map Prod.fst).Nodup
    ∧ ∀ p ∈ find_warnings db lf s, ∀ w ∈ p.2, w.kind = p.1 := by
  refine ⟨?_, ?_, ?_⟩
  · intro k
    have h := bucketLookup_foldl s
      (db.query_vulnerabilities lf (s.query.informational_set true)) [] k
    simpa [find_warnings, bucketLookup] using h
  · have h := nodup_keys_foldl s
      (db.query_vulnerabilities lf (s.query.informational_set true)) [] (by simp)
    simpa [find_warnings] using h
  · have h := bucketsWF_foldl (fun _ => True) s
      (db.query_vulnerabilities lf (s.query.informational_set true)) []
      (by intro p hp; simp at hp) (fun _ _ _ => trivial)
    intro p hp w hw
    have hp2 : p ∈ (db.query_vulnerabilities lf (s.query.informational_set true)).foldl
        (processMatch s) [] := by simpa [find_warnings] using hp
    exact ((h p hp2).2 w hw).1.symm

/-- Witness for C3, instantiated on the example inputs. -/
theorem C3_grouping_witness : exWarning1.kind = WarningKind.unmaintained :=
  (C3_grouping exDatabase exLockfile exSettings).2.2
    (WarningKind.unmaintained, [exWarning1, exWarning2]) (by decide) exWarning1 (by decide)

/-- Claim C4: every `VulnerabilityInfo` built by `VulnerabilityInfo.new`
— hence the one inside any generated report — satisfies
`count = list.length`, `found ↔ count > 0`, and keeps the input list
verbatim. -/
theorem C4_vulnerability_info :
    (∀ l : List Vulnerability,
        (VulnerabilityInfo.new l).count = (VulnerabilityInfo.new l).list.length
        ∧ ((VulnerabilityInfo.new l).found = true ↔ 0 < (VulnerabilityInfo.new l).count)
        ∧ (VulnerabilityInfo.new l).list = l)
    ∧ ∀ (gitFeature : Bool) (db : Database) (lf : Lockfile) (s : Settings),
        (Report.generate gitFeature db lf s).vulnerabilities.count
            = (Report.generate gitFeature db lf s).vulnerabilities.list.length
        ∧ ((Report.generate gitFeature db lf s).vulnerabilities.found = true ↔
            0 < (Report.generate gitFeature db lf s).vulnerabilities.count) := by
  have base : ∀ l : List Vulnerability,
      (VulnerabilityInfo.new l).count = (VulnerabilityInfo.new l).list.length
      ∧ ((VulnerabilityInfo.new l).found = true ↔ 0 < (VulnerabilityInfo.new l).count)
      ∧ (VulnerabilityInfo.new l).list = l := by
    intro l
    refine ⟨rfl, ?_, rfl⟩
    cases l <;> simp [VulnerabilityInfo.new]
  refine ⟨base, ?_⟩
  intro gitFeature db lf s
  exact ⟨(base _).1, (base _).2.1⟩

/-- Claim C5: `Settings.query` produces a query scoped to all packages,
carrying exactly the optional target-arch, target-OS and severity of the
settings, with informational mode off; and the query does not depend on
the ignore set or the informational-warnings list. -/
theorem C5_query_builder (s : Settings) :
    ((s.query).scope_all_crates = true
      ∧ (s.query).target_arch = s.target_arch
      ∧ (s.query).target_os = s.target_os
      ∧ (s.query).severity = s.severity
      ∧ (s.query).informational = false)
    ∧ ∀ (ignore : List AdvisoryId) (iw : List Informational),
        Settings.query { s with ignore := ignore, informational_warnings := iw }
          = s.query := by
  rcases s with ⟨ta, tos, sev, ign, iw0⟩
  cases ta <;> cases tos <;> cases sev <;>
    simp [Settings.query, Query.crate_scope, Query.target_arch_set,
      Query.target_os_set, Query.severity_set]

/-- Claim C6: `Report.generate` is deterministic — two calls with equal
database, lockfile and settings (under the same build configuration)
produce identical reports. -/
theorem C6_generate_deterministic (gitFeature : Bool) (db1 db2 : Database)
    (lf1 lf2 : Lockfile) (s1 s2 : Settings)
    (hdb : db1 = db2) (hlf : lf1 = lf2) (hs : s1 = s2) :
    Report.generate gitFeature db1 lf1 s1 = Report.generate gitFeature db2 lf2 s2 := by
  subst hdb; subst hlf; subst hs; rfl

/-- Witness for C6, instantiated on the example inputs. -/
theorem C6_generate_deterministic_witness :
    Report.generate true exDatabase exLockfile exSettings
      = Report.generate true exDatabase exLockfile exSettings :=
  C6_generate_deterministic true exDatabase exDatabase exLockfile exLockfile
    exSettings exSettings rfl rfl rfl

/-- Claim C7: the `expect("informational advisory")` branch of
`find_warnings` is unreachable — the fallible form always returns `ok`
of the total form's result — because the membership guard can only
succeed when the informational payload is present. -/
theorem C7_expect_unreachable :
    (∀ (db : Database) (lf : Lockfile) (s : Settings),
        find_warningsChecked db lf s = Except.ok (find_warnings db lf s))
    ∧ ∀ (s : Settings) (v : Vulnerability),
        v.advisory.informational = none →
          (s.informational_warnings.any
            (fun info => some info = v.advisory.informational)) = false := by
  constructor
  · exact find_warningsChecked_eq
  · intro s v h
    rw [h]
    simp

/-- Witness for C7, instantiated on the example inputs. -/
theorem C7_expect_unreachable_witness :
    find_warningsChecked exDatabase exLockfile exSettings
        = Except.ok (find_warnings exDatabase exLockfile exSettings)
    ∧ (exSettings.informational_warnings.any
        (fun info => some info = exVulnA.advisory.informational)) = false :=
  ⟨C7_expect_unreachable.1 exDatabase exLockfile exSettings,
   C7_expect_unreachable.2 exSettings exVulnA rfl⟩

/-- Claim C8: the database provenance projection reports the total
advisory count, and its commit fields are absent exactly when the
database has no history metadata — present values are copied, never
defaulted. -/
theorem C8_database_info (db : Database) :
    (DatabaseInfo.new db).advisory_count = db.advisories.length
    ∧ (db.latest_commit = none →
        (DatabaseInfo.new db).last_commit = none
        ∧ (DatabaseInfo.new db).last_updated = none)
    ∧ ∀ c : Commit, db.latest_commit = some c →
        (DatabaseInfo.new db).last_commit = some c.to_hex
        ∧ (DatabaseInfo.new db).last_updated = some c.timestamp := by
  refine ⟨rfl, ?_, ?_⟩
  · intro h
    simp [DatabaseInfo.new, h]
  · intro c h
    simp [DatabaseInfo.new, h]

/-- Witness for C8, instantiated on the history-less example database. -/
theorem C8_database_info_witness :
    (DatabaseInfo.new exDatabaseNoGit).advisory_count
        = exDatabaseNoGit.advisories.length
    ∧ (DatabaseInfo.new exDatabaseNoGit).last_commit = none
    ∧ (DatabaseInfo.new exDatabaseNoGit).last_updated = none :=
  ⟨(C8_database_info exDatabaseNoGit).1, (C8_database_info exDatabaseNoGit).2.1 rfl⟩

/-- Counterexample to C9: the example database exposes no history
metadata, yet with the `git` feature enabled the generated report's
`database` section is present, and with the feature disabled it is
absent for the very same collaborator — so presence is decided by the
build configuration, not by a runtime capability check. -/
theorem C9_counterexample :
    exDatabaseNoGit.latest_commit = none
    ∧ (Report.generate true exDatabaseNoGit exLockfile exSettings).database.isSome = true
    ∧ (Report.generate false exDatabaseNoGit exLockfile exSettings).database.isSome
        = false :=
  ⟨rfl, rfl, rfl⟩

/-- Amended C9: the presence of the `database` section is decided by the
compile-time `git` feature; the runtime capability check governs only
the commit fields inside the section, which are absent when the
database exposes no history metadata. -/
theorem C9_amended_feature_gate (gitFeature : Bool) (db : Database) (lf : Lockfile)
    (s : Settings) :
    ((Report.generate gitFeature db lf s).database
        = if gitFeature then some (DatabaseInfo.new db) else none)
    ∧ (db.latest_commit = none →
        (DatabaseInfo.new db).last_commit = none
        ∧ (DatabaseInfo.new db).last_updated = none) := by
  refine ⟨rfl, ?_⟩
  intro h
  simp [DatabaseInfo.new, h]

/-- Witness for the amended C9, instantiated on the history-less
example database with the feature disabled. -/
theorem C9_amended_feature_gate_witness :
    ((Report.generate false exDatabaseNoGit exLockfile exSettings).database
        = if false then some (DatabaseInfo.new exDatabaseNoGit) else none)
    ∧ ((DatabaseInfo.new exDatabaseNoGit).last_commit = none
        ∧ (DatabaseInfo.new exDatabaseNoGit).last_updated = none) :=
  ⟨(C9_amended_feature_gate false exDatabaseNoGit exLockfile exSettings).1,
   (C9_amended_feature_gate false exDatabaseNoGit exLockfile exSettings).2 rfl⟩

/-- Claim C10: every kind key present in the map returned by
`find_warnings` holds a non-empty bucket, and every stored warning
carries a present advisory and a present version range. -/
theorem C10_bucket_invariants (db : Database) (lf : Lockfile) (s : Settings) :
    ∀ p ∈ find_warnings db lf s,
      p.2 ≠ [] ∧ ∀ w ∈ p.2, w.advisory.isSome = true ∧ w.versions.isSome = true := by
  have h := bucketsWF_foldl
    (fun w => w.advisory.isSome = true ∧ w.versions.isSome = true) s
    (db.query_vulnerabilities lf (s.query.informational_set true)) []
    (by intro p hp; simp at hp)
    (by intro v w hw
        rcases warningSelect_shape s v w hw with ⟨h1, h2⟩
        simp [h1, h2])
  intro p hp
  have hp2 : p ∈ (db.query_vulnerabilities lf (s.query.informational_set true)).foldl
      (processMatch s) [] := by simpa [find_warnings] using hp
  rcases h p hp2 with ⟨hne, hall⟩
  exact ⟨hne, fun w hw => (hall w hw).2⟩

/-- Witness for C10, instantiated on the example inputs. -/
theorem C10_bucket_invariants_witness :
    ([exWarning1, exWarning2] ≠ ([] : List Warning))
    ∧ ∀ w ∈ [exWarning1, exWarning2],
        w.advisory.isSome = true ∧ w.versions.isSome = true :=
  C10_bucket_invariants exDatabase exLockfile exSettings
    (WarningKind.unmaintained, [exWarning1, exWarning2]) (by decide)

end Rustsec
